import Mathlib

set_option autoImplicit false

set_option maxRecDepth 4096

/-!
Verification of the mcp-vive server core (src/server.js) against its
natural-language specification.

The JavaScript source is shallowly embedded: JSON/JS values become the
inductive `JsVal` (with JS truthiness, `||`, `??` and `===` made explicit),
and a rejected promise that propagates out of a function is embedded as
`Except.error`.  The network is a parameter `net : Url → FetchOutcome`
supplying, for each request URL, either an HTTP response (already split
into `ok`/`status` plus the raw body text and its parsed JSON value,
standing for `JSON.parse`) or an abort (`fetch` rejecting because of the
timeout-driven `controller.abort()` or a transport failure).  Note that
`fetchJson` never actually consults the network: building the fetch
options reads the undeclared identifier `DRUPAL_BASIC_AUTH` (server.js
line 32; the module declares `DRUPAL_BEARER_TOKEN` on line 15 and never
uses it), which in an ES module throws `ReferenceError` before `fetch`
runs, so every call rejects without issuing a request and the whole
response-handling path of the resolver is dead code.
-/

/-- A JavaScript runtime value as used by server.js: JSON values plus
`undefined`.  Numbers are embedded as integers (every numeric literal the
program manipulates is integral; NaN does not occur). -/
inductive JsVal where
  | undefined
  | null
  | bool (b : Bool)
  | num (n : Int)
  | str (s : String)
  | arr (elems : List JsVal)
  | obj (fields : List (String × JsVal))

/-- JS truthiness: `undefined`, `null`, `false`, `0` and `""` are falsy,
objects and arrays are always truthy. -/
def truthy : JsVal → Bool
  | .undefined => false
  | .null => false
  | .bool b => b
  | .num n => n != 0
  | .str s => s != ""
  | .arr _ => true
  | .obj _ => true

/-- Property access `v.k` / `v?.k`.  On an object, the named field (or
`undefined` when missing); on every other value, `undefined`.  This also
covers the optional-chaining uses in the source: `?.` on a nullish base
yields `undefined`. -/
def jsGet (v : JsVal) (k : String) : JsVal :=
  match v with
  | .obj fields =>
    match fields.find? (fun p => p.1 == k) with
    | some p => p.2
    | none => .undefined
  | _ => .undefined

/-- JS `a || b`: `a` when truthy, else `b`. -/
def jsOr (a b : JsVal) : JsVal := if truthy a then a else b

/-- JS `a ?? b`: `b` exactly when `a` is `null` or `undefined`. -/
def jsNullish (a b : JsVal) : JsVal :=
  match a with
  | .undefined => b
  | .null => b
  | _ => a

/-- JS strict equality `===` on the values the program compares (primitives;
for objects and arrays `===` is reference equality, and the compared values
originate from distinct parsed JSON nodes, hence `false`). -/
def jsStrictEq : JsVal → JsVal → Bool
  | .undefined, .undefined => true
  | .null, .null => true
  | .bool a, .bool b => a == b
  | .num a, .num b => a == b
  | .str a, .str b => a == b
  | _, _ => false

/-- `Array.isArray`. -/
def isArray : JsVal → Bool
  | .arr _ => true
  | _ => false

/-- Test for the value `null`. -/
def isNull : JsVal → Bool
  | .null => true
  | _ => false

/-- The element list of an array value (used for `included`, which the
program only ever treats as an array). -/
def arrElems : JsVal → List JsVal
  | .arr xs => xs
  | _ => []

mutual
/-- JS `String(v)` coercion as used by `stripHtml`. -/
def jsToString : JsVal → String
  | .undefined => "undefined"
  | .null => "null"
  | .bool true => "true"
  | .bool false => "false"
  | .num n => toString n
  | .str s => s
  | .arr xs => jsArrToString xs
  | .obj _ => "[object Object]"

/-- JS array-to-string: elements joined with commas, nullish elements
becoming empty. -/
def jsArrToString : List JsVal → String
  | [] => ""
  | [x] =>
    (match x with
     | .null => ""
     | .undefined => ""
     | v => jsToString v)
  | x :: xs =>
    (match x with
     | .null => ""
     | .undefined => ""
     | v => jsToString v) ++ "," ++ jsArrToString xs
end

/-! ## stripHtml (src/server.js lines 60-68)

The regex pipeline is embedded over `List Char`.  Each `.replace` call is
one scanning function, mirroring the left-to-right, non-overlapping match
semantics of a global JS regex:

* `/<script[\s\S]*?>[\s\S]*?<\/script>/gi` (and the `style` twin): at an
  occurrence of `<script` (ASCII case-insensitive), the lazy quantifiers
  match at the first following `>` and the first `</script>` after it; the
  whole span is removed.
* `/<\/?[^>]+>/g`: `<`, at least one non-`>` character, `>`, replaced by a
  space.
* `/\s+/g` replaced by one space, then `trim()`.
-/

/-- JS `\s` whitespace class. -/
def isJsWs (c : Char) : Bool :=
  c == ' ' || c == '\t' || c == '\n' || c == '\r' ||
  c.toNat == 0x0b || c.toNat == 0x0c || c.toNat == 0xa0 ||
  c.toNat == 0x1680 || (0x2000 ≤ c.toNat && c.toNat ≤ 0x200a) ||
  c.toNat == 0x2028 || c.toNat == 0x2029 || c.toNat == 0x202f ||
  c.toNat == 0x205f || c.toNat == 0x3000 || c.toNat == 0xfeff

/-- Case-insensitive match of one pattern character `p` (the patterns here
use only lowercase letters and symbols) against a subject character: exact,
or the uppercase form of a lowercase-letter pattern character. -/
def charCI (p c : Char) : Bool :=
  c == p || (('a' ≤ p && p ≤ 'z') && c.toNat + 32 == p.toNat)

/-- Case-insensitive prefix test. -/
def startsWithCI : List Char → List Char → Bool
  | [], _ => true
  | _ :: _, [] => false
  | p :: ps, c :: cs => charCI p c && startsWithCI ps cs

/-- The suffix strictly after the first `>` (the landing point of a lazy
`[\s\S]*?>`), if any. -/
def afterGt : List Char → Option (List Char)
  | [] => none
  | c :: rest => if c == '>' then some rest else afterGt rest

/-- The suffix strictly after the first case-insensitive occurrence of
`close` (the landing point of a lazy `[\s\S]*?` before the closing
literal), if any. -/
def afterCloseCI (close : List Char) : List Char → Option (List Char)
  | [] => none
  | c :: rest =>
    if startsWithCI close (c :: rest) then some (List.drop close.length (c :: rest))
    else afterCloseCI close rest

/-- One block-removing `.replace` pass (`script` or `style`).  At a
case-insensitive occurrence of `openTag`, the span up to the first `>` and
then the first occurrence of `close` is deleted; otherwise the scan moves
one character.  `fuel` only makes the recursion structural; it starts at
the input length, which every recursive call strictly under-runs. -/
def blockStripGo (openTag close : List Char) : Nat → List Char → List Char
  | _, [] => []
  | 0, l => l
  | fuel + 1, c :: rest =>
    if startsWithCI openTag (c :: rest) then
      match afterGt (List.drop openTag.length (c :: rest)) with
      | some g =>
        match afterCloseCI close g with
        | some after => blockStripGo openTag close fuel after
        | none => c :: blockStripGo openTag close fuel rest
      | none => c :: blockStripGo openTag close fuel rest
    else c :: blockStripGo openTag close fuel rest

def scriptOpen : List Char := ['<', 's', 'c', 'r', 'i', 'p', 't']

def scriptClose : List Char := ['<', '/', 's', 'c', 'r', 'i', 'p', 't', '>']

def styleOpen : List Char := ['<', 's', 't', 'y', 'l', 'e']

def styleClose : List Char := ['<', '/', 's', 't', 'y', 'l', 'e', '>']

/-- `.replace(/<script[\s\S]*?>[\s\S]*?<\/script>/gi, "")`. -/
def scriptStrip (l : List Char) : List Char :=
  blockStripGo scriptOpen scriptClose l.length l

/-- `.replace(/<style[\s\S]*?>[\s\S]*?<\/style>/gi, "")`. -/
def styleStrip (l : List Char) : List Char :=
  blockStripGo styleOpen styleClose l.length l

/-- `.replace(/<\/?[^>]+>/g, " ")` as a one-pass automaton.  Mode `none`:
outside a candidate tag.  Mode `some buf`: after a `<`, with `buf` the
(reversed) non-`>` characters read so far; a `>` closes the tag (replaced
by one space) when the content is non-empty, while `<>` and an unclosed
`<` are left as-is. -/
def tagStripA : Option (List Char) → List Char → List Char
  | none, [] => []
  | none, c :: rest =>
    if c == '<' then tagStripA (some []) rest else c :: tagStripA none rest
  | some buf, [] => '<' :: buf.reverse
  | some buf, c :: rest =>
    if c == '>' then
      if buf.isEmpty then '<' :: '>' :: tagStripA none rest
      else ' ' :: tagStripA none rest
    else tagStripA (some (c :: buf)) rest

def tagStrip (l : List Char) : List Char := tagStripA none l

/-- `.replace(/\s+/g, " ")` as a one-pass automaton; the flag records
whether the previous character was whitespace (in which case further
whitespace is swallowed). -/
def collapseA : Bool → List Char → List Char
  | _, [] => []
  | prevWs, c :: rest =>
    if isJsWs c then
      if prevWs then collapseA true rest else ' ' :: collapseA true rest
    else c :: collapseA false rest

def collapseWs (l : List Char) : List Char := collapseA false l

/-- Remove a trailing whitespace run. -/
def dropTrailWs : List Char → List Char
  | [] => []
  | c :: rest =>
    match dropTrailWs rest with
    | [] => if isJsWs c then [] else [c]
    | r => c :: r

/-- JS `String.prototype.trim()`. -/
def trimL (l : List Char) : List Char := dropTrailWs (l.dropWhile isJsWs)

/-- The full replacement pipeline of `stripHtml` on character lists. -/
def stripHtmlL (l : List Char) : List Char :=
  trimL (collapseWs (tagStrip (styleStrip (scriptStrip l))))

def stripHtmlS (s : String) : String := String.mk (stripHtmlL s.data)

/-- `stripHtml` (src/server.js lines 60-68): falsy input gives `""`,
otherwise the input is coerced to a string and run through the pipeline. -/
def stripHtml (html : JsVal) : String :=
  if truthy html then stripHtmlS (jsToString html) else ""

example : stripHtmlS "<p>Hi<script>bad()</script></p>" = "Hi" := by decide

example : stripHtmlS "a  <b>x</b>  <style>p{}</style>c" = "a x c" := by decide

example : stripHtmlS "<ScRiPt foo>nope</SCRIPT> ok" = "ok" := by decide

example : stripHtmlS "<> <a" = "<> <a" := by decide

/-! ## Relationship resolution (src/server.js lines 70-89) -/

/-- The inner `resolveOne` closure of `resolveIncludedNames`: find the first
side-loaded resource whose `type` and `id` strictly equal the reference's,
and take `found.attributes?.name || found.attributes?.title || null`. -/
def resolveOneIncluded (included : List JsVal) (ref : JsVal) : JsVal :=
  match included.find? (fun x =>
      jsStrictEq (jsGet x "type") (jsGet ref "type") &&
      jsStrictEq (jsGet x "id") (jsGet ref "id")) with
  | none => .null
  | some found =>
    jsOr (jsGet (jsGet found "attributes") "name")
      (jsOr (jsGet (jsGet found "attributes") "title") .null)

/-- `resolveIncludedNames(payload, relData)` (src/server.js lines 71-89).
Nothing side-loaded or no reference: `null`.  A list reference maps
`resolveOne` over it and keeps the truthy results (`.filter(Boolean)`); a
single reference resolves directly.  (`included` is only ever an array in
the repository's responses; `arrElems` reads its elements.) -/
def resolveIncludedNames (payload relData : JsVal) : JsVal :=
  if !truthy (jsGet payload "included") || !truthy relData then .null
  else
    let included := arrElems (jsGet payload "included")
    match relData with
    | .arr refs => .arr ((refs.map (resolveOneIncluded included)).filter truthy)
    | _ => resolveOneIncluded included relData

/-! ## Query URLs (src/server.js lines 91-135)

`new URL(endpoint).searchParams.set(...)` is embedded structurally: a base
endpoint (the configured `DRUPAL_JSONAPI_ENDPOINT`, assumed to carry no
query of its own) plus the ordered key/value list written by the
`searchParams.set` calls (each sets a fresh key, hence appends). -/

structure Url where
  base : String
  params : List (String × String)
deriving DecidableEq

/-- `searchParams.set`: replace the value of an existing key, else append. -/
def setParam (u : Url) (k v : String) : Url :=
  if u.params.any (fun p => p.1 == k) then
    { u with params := u.params.map (fun p => if p.1 == k then (k, v) else p) }
  else
    { u with params := u.params ++ [(k, v)] }

def includeList : String :=
  "field_autore,field_tipologia,field_luogo,field_tecnica,field_materiale,field_schedatore"

/-- `buildOperaUrlWithFilterParams` (lines 91-110): compact filter
encoding. -/
def buildOperaUrlWithFilterParams (endpoint numeroInventario : String) : Url :=
  setParam
    (setParam
      (setParam { base := endpoint, params := [] } "page[limit]" "1")
      "filter[field_inventario]" numeroInventario)
    "include" includeList

/-- `buildOperaUrlWithFilterParamsVerboseFallback` (lines 113-135): verbose
condition encoding. -/
def buildOperaUrlWithFilterParamsVerboseFallback (endpoint numeroInventario : String) : Url :=
  setParam
    (setParam
      (setParam
        (setParam
          (setParam { base := endpoint, params := [] } "page[limit]" "1")
          "filter[inventario][condition][path]" "field_inventario")
        "filter[inventario][condition][operator]" "=")
      "filter[inventario][condition][value]" numeroInventario)
    "include" includeList

/-! ## Fetch and lookup (src/server.js lines 21-58, 137-209) -/

/-- The observable result record that `fetchJson` builds from a completed
HTTP response: `ok`, `status`, the raw body `text`, and `json` standing for
`text ? JSON.parse(text) : null` with a parse failure caught and left as
`null` (lines 40-47). -/
structure FetchResp where
  ok : Bool
  status : Nat
  json : JsVal
  text : String

/-- What the environment would do with one outbound request: deliver a
response, or make `fetch` reject (the timeout's `controller.abort()`, or a
network failure).  The request is in fact never issued (see
`fetchOptionsEval`), so this only parameterizes the unreachable branch of
`fetchJson`. -/
inductive FetchOutcome where
  | resp (r : FetchResp)
  | abort

/-- An exception propagating out of an `async` function.
`referenceError` is the `ReferenceError: DRUPAL_BASIC_AUTH is not defined`
raised on line 32: the module declares `DRUPAL_BEARER_TOKEN` (line 15, and
never uses it) but `fetchJson` spreads on the undeclared identifier
`DRUPAL_BASIC_AUTH`, which in an ES module (strict mode) throws.
`fetchAborted` is the rejection of an aborted `fetch`; it cannot actually
arise, because the options object throws before `fetch` is called. -/
inductive JsError where
  | referenceError
  | fetchAborted
deriving DecidableEq

/-- Evaluation of the second argument of `fetch` (the options object,
lines 29-35): building the headers evaluates
`...(DRUPAL_BASIC_AUTH ? {...} : {})`, and `DRUPAL_BASIC_AUTH` is declared
nowhere in the module, so the evaluation throws `ReferenceError` -- before
`fetch` is invoked, hence before any request leaves the process. -/
def fetchOptionsEval : Except JsError Unit := .error .referenceError

/-- `fetchJson` (lines 21-58), paired with the list of outbound requests
it actually issues.  The options object is evaluated first and throws
(`fetchOptionsEval`); the `try ... finally` only runs `clearTimeout` and
there is no `catch`, so the error propagates and no request is ever sent.
The rest of the function -- delivering `{ok, status, json, text}` from a
completed response, or rejecting when the timeout aborts the fetch -- is
written out in the source but unreachable; it is modelled under the dead
`.ok` branch, with `net` standing for the network's behaviour. -/
def fetchJson (net : Url → FetchOutcome) (url : Url) :
    List Url × Except JsError FetchResp :=
  match fetchOptionsEval with
  | .error e => ([], .error e)
  | .ok _ =>
    match net url with
    | .resp r => ([url], .ok r)
    | .abort => ([url], .error .fetchAborted)

/-- The `dimensioni` group of the result record (lines 191-196). -/
structure Dimensioni where
  altezza : JsVal
  larghezza : JsVal
  diametro : JsVal
  spessore : JsVal

/-- The `descrizione` group of the result record (lines 203-206). -/
structure Descrizione where
  text : String
  html : JsVal

/-- The `found:true` record built on lines 180-208. -/
structure ResolvedItem where
  id : JsVal
  type : JsVal
  title : JsVal
  numero_inventario : JsVal
  periodo : JsVal
  data_label : JsVal
  data_da : JsVal
  data_a : JsVal
  acquisizione : JsVal
  dimensioni : Dimensioni
  autore : JsVal
  tipologia : JsVal
  luogo : JsVal
  tecnica : JsVal
  materiale : JsVal
  schedatore : JsVal
  descrizione : Descrizione
  links : JsVal

/-- The result value of `lookupOperaByInventario`, one constructor per
return site: `requestFailed status details` is
`{found:false, error:"Drupal request failed (status)", details}`
(lines 150-156), `notFound` is `{found:false, error:null}` (lines 161-166),
`found item` is the `found:true` record (lines 180-208). -/
inductive LookupResult where
  | requestFailed (status : Nat) (details : JsVal)
  | notFound
  | found (item : ResolvedItem)

/-- The `details` value of the failure return (line 154):
`res.json?.errors || res.text?.slice(0, 500) || null`. -/
def failDetails (res : FetchResp) : JsVal :=
  jsOr (jsGet res.json "errors") (jsOr (.str (res.text.take 500)) .null)

/-- Lines 158-209 of `lookupOperaByInventario`: mapping the final (possibly
retried) response to a result value. -/
def lookupFinish (res : FetchResp) : LookupResult :=
  if !res.ok then
    .requestFailed res.status (failDetails res)
  else
    let payload := res.json
    let d := jsGet payload "data"
    let item := match d with
      | .arr [] => .undefined
      | .arr (x :: _) => x
      | other => other
    if !truthy item then .notFound
    else
      let a := jsOr (jsGet item "attributes") (.obj [])
      let rels := jsGet item "relationships"
      let autore := resolveIncludedNames payload (jsGet (jsGet rels "field_autore") "data")
      let tipologia := resolveIncludedNames payload (jsGet (jsGet rels "field_tipologia") "data")
      let luogo := resolveIncludedNames payload (jsGet (jsGet rels "field_luogo") "data")
      let tecnica := resolveIncludedNames payload (jsGet (jsGet rels "field_tecnica") "data")
      let materiale := resolveIncludedNames payload (jsGet (jsGet rels "field_materiale") "data")
      let schedatore := resolveIncludedNames payload (jsGet (jsGet rels "field_schedatore") "data")
      let descrizioneHtml :=
        jsOr (jsGet (jsGet a "field_descrizione") "processed")
          (jsOr (jsGet (jsGet a "field_descrizione") "value") (.str ""))
      let descrizioneText := stripHtml descrizioneHtml
      .found {
        id := jsGet item "id"
        type := jsGet item "type"
        title := jsOr (jsGet a "title") .null
        numero_inventario := jsOr (jsGet a "field_inventario") .null
        periodo := jsOr (jsGet a "field_periodo") .null
        data_label := jsOr (jsGet a "field_data_label") .null
        data_da := jsNullish (jsGet a "field_data_0") .null
        data_a := jsNullish (jsGet a "field_data_1") .null
        acquisizione := jsOr (jsGet a "field_acquisizione") .null
        dimensioni := {
          altezza := jsNullish (jsGet a "field_altezza") .null
          larghezza := jsNullish (jsGet a "field_larghezza") .null
          diametro := jsNullish (jsGet a "field_diametro") .null
          spessore := jsNullish (jsGet a "field_spessore") .null
        }
        autore := autore
        tipologia := tipologia
        luogo := luogo
        tecnica := tecnica
        materiale := materiale
        schedatore := schedatore
        descrizione := { text := descrizioneText, html := descrizioneHtml }
        links := jsOr (jsGet item "links") .null
      }

/-- `lookupOperaByInventario` (lines 137-209), instrumented with the list
of outbound requests it performs.  As written, the first fetch would use
the compact filter URL and, exactly when it completed with `!ok` and
status 400 or 403, the verbose URL would be fetched once more, the final
response being mapped by `lookupFinish`; a rejected `fetchJson` propagates
(there is no catch in the source).  Since `fetchJson` always rejects with
the `ReferenceError` before issuing a request, the whole response path is
dead: every invocation returns `([], Except.error .referenceError)`. -/
def lookupOperaByInventario (net : Url → FetchOutcome) (endpoint numeroInventario : String) :
    List Url × Except JsError LookupResult :=
  match fetchJson net (buildOperaUrlWithFilterParams endpoint numeroInventario) with
  | (reqs, .error e) => (reqs, .error e)
  | (reqs, .ok res) =>
    if !res.ok && (res.status == 400 || res.status == 403) then
      match fetchJson net
          (buildOperaUrlWithFilterParamsVerboseFallback endpoint numeroInventario) with
      | (reqs2, .error e) => (reqs ++ reqs2, .error e)
      | (reqs2, .ok res2) => (reqs ++ reqs2, .ok (lookupFinish res2))
    else
      (reqs, .ok (lookupFinish res))

/-! ## Protocol dispatcher (src/server.js lines 278-338)

The Express handlers are embedded as functions of the decision-relevant
data: the session registry (the ids in the `sessions` map; the per-session
`{transport, server}` handles are external SDK objects), the
`mcp-session-id` header (absent, or present with a possibly empty string
value), and whether `isInitializeRequest(req.body)` holds (the body itself
is opaque to the dispatcher).  `newSid` stands for the fresh
`randomUUID()` the SDK reports to `onsessioninitialized`, at which point
the source registers the session; forwarding to a transport and the
transport's own protocol handling are external effects.  Each function
returns the dispatch decision together with the registry afterwards. -/

/-- Decision of the `POST /mcp` handler (lines 278-325). -/
inductive PostOutcome where
  | forwarded (sid : String)
  | created (newSid : String)
  | rejected (status : Nat) (code : Int) (message : String)
deriving DecidableEq

/-- Decision of the `GET /mcp` handler (lines 328-338). -/
inductive GetOutcome where
  | forwarded (sid : String)
  | invalidSession (status : Nat) (message : String)
deriving DecidableEq

/-- Truthiness of the header value `req.headers["mcp-session-id"]`
(`undefined` when the header is absent; the empty string is falsy). -/
def headerTruthy : Option String → Bool
  | none => false
  | some s => s != ""

/-- `let session = sessionId ? sessions.get(sessionId) : null` followed by
the truthiness test of `session`: a live session is found exactly when the
header value is truthy and registered. -/
def sessionLive (sessions : List String) (sessionId : Option String) : Bool :=
  match sessionId with
  | none => false
  | some s => s != "" && sessions.contains s

/-- `app.post("/mcp", ...)` (lines 278-325). -/
def postDispatch (sessions : List String) (newSid : String)
    (sessionId : Option String) (isInitReq : Bool) : PostOutcome × List String :=
  if sessionLive sessions sessionId then
    (.forwarded (sessionId.getD ""), sessions)
  else if !headerTruthy sessionId && isInitReq then
    (.created newSid, newSid :: sessions)
  else
    (.rejected 400 (-32000) "Bad Request: No valid session ID provided", sessions)

/-- `app.get("/mcp", ...)` (lines 328-338). -/
def getDispatch (sessions : List String) (sessionId : Option String) :
    GetOutcome × List String :=
  if sessionLive sessions sessionId then
    (.forwarded (sessionId.getD ""), sessions)
  else
    (.invalidSession 400 "Invalid or missing session ID", sessions)

/-! ## Invariants of the stripHtml output

`stripHtml` is idempotent because its output can contain no further match
of any of its regexes: every surviving `<` is immediately followed by `>`
or has no `>` anywhere after it (`noTagB`), and all whitespace is a single
interior space (`midNormB` plus non-whitespace endpoints). -/

/-- Every `<` is immediately followed by `>`, or has no `>` after it at
all: no suffix matches `<\/?[^>]+>` (nor, a fortiori, a block regex). -/
def noTagB : List Char → Bool
  | [] => true
  | [_] => true
  | c :: d :: rest =>
    if c == '<' then
      (d == '>' && noTagB (d :: rest)) || !(decide ('>' ∈ d :: rest))
    else noTagB (d :: rest)

lemma noTagB_cons_ne {c : Char} (l : List Char) (h : ¬c = '<') :
    noTagB (c :: l) = noTagB l := by
  cases l with
  | nil => rfl
  | cons d rest => simp [noTagB, h]

lemma noTagB_of_not_mem : ∀ l : List Char, '>' ∉ l → noTagB l = true := by
  intro l
  induction l with
  | nil => intro _; rfl
  | cons c rest ih =>
    intro h
    have hrest : '>' ∉ rest := fun hm => h (List.mem_cons_of_mem _ hm)
    by_cases hc : c = '<'
    · subst hc
      cases rest with
      | nil => rfl
      | cons d r =>
        simp only [noTagB, beq_self_eq_true, if_true, Bool.or_eq_true]
        right
        simpa using hrest
    · rw [noTagB_cons_ne _ hc]
      exact ih hrest

lemma noTagB_lt_elim {l : List Char} (h : noTagB ('<' :: l) = true) :
    '>' ∉ l ∨ ∃ l2, l = '>' :: l2 ∧ noTagB l2 = true := by
  cases l with
  | nil => exact Or.inl (List.not_mem_nil _)
  | cons d rest =>
    simp only [noTagB, beq_self_eq_true, if_true, Bool.or_eq_true, Bool.and_eq_true,
      beq_iff_eq, Bool.not_eq_true', decide_eq_false_iff_not] at h
    rcases h with ⟨hd, hn⟩ | h
    · subst hd
      exact Or.inr ⟨rest, rfl, by rwa [noTagB_cons_ne rest (by decide)] at hn⟩
    · exact Or.inl h

lemma noTagB_tail {c : Char} {l : List Char} (h : noTagB (c :: l) = true) :
    noTagB l = true := by
  by_cases hc : c = '<'
  · subst hc
    rcases noTagB_lt_elim h with h1 | ⟨l2, rfl, h2⟩
    · exact noTagB_of_not_mem _ h1
    · rwa [noTagB_cons_ne l2 (by decide)]
  · rwa [noTagB_cons_ne _ hc] at h

lemma noTagB_lt_of_not_mem {l : List Char} (h : '>' ∉ l) :
    noTagB ('<' :: l) = true := by
  cases l with
  | nil => rfl
  | cons d rest =>
    simp only [noTagB, beq_self_eq_true, if_true, Bool.or_eq_true]
    right
    simpa using h

lemma noTagB_lt_gt {l : List Char} (h : noTagB l = true) :
    noTagB ('<' :: '>' :: l) = true := by
  have h2 : noTagB ('>' :: l) = true := by rwa [noTagB_cons_ne l (by decide)]
  simp [noTagB, h2]

/-- The tag automaton never emits a list with a further tag match. -/
lemma noTagB_tagStripA :
    ∀ (l : List Char) (ob : Option (List Char)),
      (∀ buf, ob = some buf → '>' ∉ buf) → noTagB (tagStripA ob l) = true := by
  intro l
  induction l with
  | nil =>
    intro ob hb
    match ob with
    | none => rfl
    | some buf =>
      show noTagB ('<' :: buf.reverse) = true
      exact noTagB_lt_of_not_mem (by simpa using hb buf rfl)
  | cons c rest ih =>
    intro ob hb
    match ob with
    | none =>
      show noTagB (if c == '<' then tagStripA (some []) rest
        else c :: tagStripA none rest) = true
      by_cases hc : c = '<'
      · simp only [hc, beq_self_eq_true, if_true]
        exact ih (some []) (by intro buf hbuf; cases hbuf; simp)
      · rw [if_neg (by simpa using hc), noTagB_cons_ne _ hc]
        exact ih none (by intro buf hbuf; cases hbuf)
    | some buf =>
      show noTagB (if c == '>' then
          (if buf.isEmpty then '<' :: '>' :: tagStripA none rest
           else ' ' :: tagStripA none rest)
        else tagStripA (some (c :: buf)) rest) = true
      by_cases hc : c = '>'
      · simp only [hc, beq_self_eq_true, if_true]
        by_cases hbuf : buf.isEmpty
        · rw [if_pos hbuf]
          exact noTagB_lt_gt (ih none (by intro b hb2; cases hb2))
        · rw [if_neg hbuf, noTagB_cons_ne _ (by decide)]
          exact ih none (by intro b hb2; cases hb2)
      · rw [if_neg (by simpa using hc)]
        refine ih (some (c :: buf)) ?_
        intro b hb2
        cases hb2
        intro hm
        rcases List.mem_cons.mp hm with h | h
        · exact hc h.symm
        · exact hb buf rfl h

/-- With no `>` in the remaining input, the automaton flushes the pending
`<` and buffer verbatim. -/
lemma tagStripA_flush :
    ∀ (rest : List Char) (buf : List Char), '>' ∉ rest →
      tagStripA (some buf) rest = '<' :: buf.reverse ++ rest := by
  intro rest
  induction rest with
  | nil => intro buf _; simp [tagStripA]
  | cons c r ih =>
    intro buf h
    have hc : ¬c = '>' := fun hcc => h (hcc ▸ List.mem_cons_self c r)
    show (if c == '>' then
        (if buf.isEmpty then '<' :: '>' :: tagStripA none r
         else ' ' :: tagStripA none r)
      else tagStripA (some (c :: buf)) r) = '<' :: buf.reverse ++ (c :: r)
    rw [if_neg (by simpa using hc)]
    rw [ih (c :: buf) (fun hm => h (List.mem_cons_of_mem _ hm))]
    simp

/-- On a list with no tag match the automaton is the identity. -/
lemma tagStripA_id :
    ∀ (n : Nat) (l : List Char), l.length ≤ n → noTagB l = true →
      tagStripA none l = l := by
  intro n
  induction n with
  | zero =>
    intro l hl _
    match l, hl with
    | [], _ => rfl
  | succ n ih =>
    intro l hl hn
    match l with
    | [] => rfl
    | c :: rest =>
      by_cases hc : c = '<'
      · subst hc
        show tagStripA (some []) rest = '<' :: rest
        rcases noTagB_lt_elim hn with h1 | ⟨l2, rfl, h2⟩
        · rw [tagStripA_flush rest [] h1]
          rfl
        · show '<' :: '>' :: tagStripA none l2 = '<' :: '>' :: l2
          have hlen : l2.length ≤ n := by
            simp only [List.length_cons] at hl
            omega
          rw [ih l2 hlen h2]
      · have hstep : tagStripA none (c :: rest) = c :: tagStripA none rest := by
          show (if c == '<' then tagStripA (some []) rest else c :: tagStripA none rest)
            = c :: tagStripA none rest
          rw [if_neg]
          simpa using hc
        rw [hstep]
        have hlen : rest.length ≤ n := by
          simp only [List.length_cons] at hl
          omega
        rw [ih rest hlen (by rwa [noTagB_cons_ne _ hc] at hn)]

lemma tagStrip_id {l : List Char} (h : noTagB l = true) : tagStrip l = l :=
  tagStripA_id l.length l (Nat.le_refl _) h

/-- Every whitespace character is a plain space, and never two spaces in a
row: `\s+` can only match single spaces. -/
def midNormB : List Char → Bool
  | [] => true
  | [c] => !(isJsWs c) || c == ' '
  | c :: d :: rest =>
    ((!(isJsWs c) || c == ' ') && !(c == ' ' && d == ' ')) && midNormB (d :: rest)

/-- The head is not whitespace (or the list is empty). -/
def headNonWs : List Char → Bool
  | [] => true
  | c :: _ => !(isJsWs c)

/-- The last character is not whitespace (or the list is empty). -/
def lastNonWsB : List Char → Bool
  | [] => true
  | [c] => !(isJsWs c)
  | _ :: c :: rest => lastNonWsB (c :: rest)

lemma midNormB_tail {c : Char} {l : List Char} (h : midNormB (c :: l) = true) :
    midNormB l = true := by
  cases l with
  | nil => rfl
  | cons d rest =>
    simp only [midNormB, Bool.and_eq_true] at h
    exact h.2

lemma midNormB_head {c : Char} {l : List Char} (h : midNormB (c :: l) = true) :
    isJsWs c = false ∨ c = ' ' := by
  cases l with
  | nil =>
    have h2 : (!(isJsWs c) || c == ' ') = true := h
    simpa using h2
  | cons d rest =>
    simp only [midNormB, Bool.and_eq_true] at h
    simpa using h.1.1

lemma midNormB_pair {c d : Char} {l : List Char} (h : midNormB (c :: d :: l) = true) :
    ¬(c = ' ' ∧ d = ' ') := by
  simp only [midNormB, Bool.and_eq_true] at h
  have h2 := h.1.2
  intro hcd
  rw [hcd.1, hcd.2] at h2
  simp at h2

lemma midNormB_cons_of {c : Char} {l : List Char}
    (h1 : isJsWs c = false ∨ c = ' ')
    (h2 : ∀ d t, l = d :: t → ¬(c = ' ' ∧ d = ' '))
    (h3 : midNormB l = true) : midNormB (c :: l) = true := by
  cases l with
  | nil =>
    show (!(isJsWs c) || c == ' ') = true
    rcases h1 with h | h
    · simp [h]
    · simp [h]
  | cons d rest =>
    have hp : ¬(c = ' ' ∧ d = ' ') := h2 d rest rfl
    simp only [midNormB, Bool.and_eq_true]
    refine ⟨⟨?_, ?_⟩, h3⟩
    · rcases h1 with h | h
      · simp [h]
      · simp [h]
    · by_cases hc2 : c = ' '
      · have hd : ¬d = ' ' := fun hd2 => hp ⟨hc2, hd2⟩
        simp [hd]
      · simp [hc2]

lemma collapseA_cons_ws {c : Char} (rest : List Char) (hc : isJsWs c = true) :
    collapseA true (c :: rest) = collapseA true rest ∧
    collapseA false (c :: rest) = ' ' :: collapseA true rest := by
  constructor
  · simp [collapseA, hc]
  · simp [collapseA, hc]

lemma collapseA_cons_nws {c : Char} (rest : List Char) (hc : isJsWs c = false) (b : Bool) :
    collapseA b (c :: rest) = c :: collapseA false rest := by
  cases b
  · simp [collapseA, hc]
  · simp [collapseA, hc]

lemma space_ws : isJsWs ' ' = true := by decide

/-- The collapse pass yields only single interior spaces, and in
whitespace-swallowing mode its output starts with a non-space. -/
lemma collapseA_norm :
    ∀ l : List Char,
      midNormB (collapseA true l) = true ∧ midNormB (collapseA false l) = true ∧
      headNonWs (collapseA true l) = true := by
  intro l
  induction l with
  | nil => exact ⟨rfl, rfl, rfl⟩
  | cons c rest ih =>
    by_cases hw : isJsWs c = true
    · refine ⟨?_, ?_, ?_⟩
      · rw [(collapseA_cons_ws rest hw).1]
        exact ih.1
      · rw [(collapseA_cons_ws rest hw).2]
        refine midNormB_cons_of (Or.inr rfl) ?_ ih.1
        intro d t he hcd
        have hh : headNonWs (collapseA true rest) = true := ih.2.2
        rw [he] at hh
        have : isJsWs d = false := by simpa [headNonWs] using hh
        rw [hcd.2] at this
        rw [space_ws] at this
        cases this
      · rw [(collapseA_cons_ws rest hw).1]
        exact ih.2.2
    · have hw2 : isJsWs c = false := by simpa using hw
      have hcsp : ¬c = ' ' := by
        intro he
        rw [he, space_ws] at hw2
        cases hw2
      have hmain : midNormB (c :: collapseA false rest) = true := by
        refine midNormB_cons_of (Or.inl hw2) ?_ ih.2.1
        intro d t _ hcd
        exact hcsp hcd.1
      refine ⟨?_, ?_, ?_⟩
      · rw [collapseA_cons_nws rest hw2 true]
        exact hmain
      · rw [collapseA_cons_nws rest hw2 false]
        exact hmain
      · rw [collapseA_cons_nws rest hw2 true]
        simpa [headNonWs] using hw2

lemma mem_collapseA : ∀ (l : List Char) (b : Bool) (x : Char),
    x ∈ collapseA b l → x = ' ' ∨ x ∈ l := by
  intro l
  induction l with
  | nil =>
    intro b x hx
    cases b <;> simp [collapseA] at hx
  | cons c rest ih =>
    intro b x hx
    by_cases hw : isJsWs c = true
    · cases b with
      | true =>
        rw [(collapseA_cons_ws rest hw).1] at hx
        rcases ih true x hx with h | h
        · exact Or.inl h
        · exact Or.inr (List.mem_cons_of_mem _ h)
      | false =>
        rw [(collapseA_cons_ws rest hw).2] at hx
        rcases List.mem_cons.mp hx with h | h
        · exact Or.inl h
        · rcases ih true x h with h2 | h2
          · exact Or.inl h2
          · exact Or.inr (List.mem_cons_of_mem _ h2)
    · rw [collapseA_cons_nws rest (by simpa using hw) b] at hx
      rcases List.mem_cons.mp hx with h | h
      · exact Or.inr (h ▸ List.mem_cons_self _ _)
      · rcases ih false x h with h2 | h2
        · exact Or.inl h2
        · exact Or.inr (List.mem_cons_of_mem _ h2)

/-- Collapsing whitespace cannot create a tag match. -/
lemma noTagB_collapseA :
    ∀ (n : Nat) (l : List Char) (b : Bool), l.length ≤ n → noTagB l = true →
      noTagB (collapseA b l) = true := by
  intro n
  induction n with
  | zero =>
    intro l b hl _
    match l, hl with
    | [], _ => cases b <;> rfl
  | succ n ih =>
    intro l b hl hn
    match l with
    | [] => cases b <;> rfl
    | c :: rest =>
      have hlen : rest.length ≤ n := by
        simp only [List.length_cons] at hl
        omega
      by_cases hw : isJsWs c = true
      · have hrest : noTagB rest = true := noTagB_tail hn
        cases b with
        | true =>
          rw [(collapseA_cons_ws rest hw).1]
          exact ih rest true hlen hrest
        | false =>
          rw [(collapseA_cons_ws rest hw).2]
          have h2 : noTagB (collapseA true rest) = true := ih rest true hlen hrest
          rwa [noTagB_cons_ne _ (by decide)]
      · have hw2 : isJsWs c = false := by simpa using hw
        rw [collapseA_cons_nws rest hw2 b]
        by_cases hc : c = '<'
        · subst hc
          rcases noTagB_lt_elim hn with h1 | ⟨l2, rfl, h2⟩
          · refine noTagB_lt_of_not_mem ?_
            intro hm
            rcases mem_collapseA rest false '>' hm with h | h
            · exact absurd h (by decide)
            · exact h1 h
          · rw [collapseA_cons_nws l2 (by decide) false]
            refine noTagB_lt_gt (ih l2 false ?_ h2)
            simp only [List.length_cons] at hl
            omega
        · rw [noTagB_cons_ne _ hc]
          exact ih rest false hlen (noTagB_tail hn)

lemma dropTrailWs_cons (c : Char) (rest : List Char) :
    dropTrailWs (c :: rest) =
      match dropTrailWs rest with
      | [] => if isJsWs c then [] else [c]
      | r => c :: r := rfl

lemma dropTrailWs_nil_or_cons (c : Char) (rest : List Char) :
    (dropTrailWs rest = [] ∧
      dropTrailWs (c :: rest) = (if isJsWs c then [] else [c])) ∨
    (∃ d t, dropTrailWs rest = d :: t ∧ dropTrailWs (c :: rest) = c :: d :: t) := by
  cases hr : dropTrailWs rest with
  | nil =>
    left
    refine ⟨rfl, ?_⟩
    rw [dropTrailWs_cons, hr]
  | cons d t =>
    right
    exact ⟨d, t, rfl, by rw [dropTrailWs_cons, hr]⟩

lemma dropTrailWs_front : ∀ l : List Char, dropTrailWs l <+: l := by
  intro l
  induction l with
  | nil => exact List.prefix_refl _
  | cons c rest ih =>
    rcases dropTrailWs_nil_or_cons c rest with ⟨_, h2⟩ | ⟨d, t, h1, h2⟩
    · rw [h2]
      by_cases hc : isJsWs c = true
      · rw [if_pos hc]
        exact List.nil_prefix
      · rw [if_neg hc]
        exact ⟨rest, rfl⟩
    · obtain ⟨u, hu⟩ := ih
      rw [h2, ← h1]
      exact ⟨u, by rw [List.cons_append, hu]⟩

lemma lastNonWsB_dropTrailWs : ∀ l : List Char, lastNonWsB (dropTrailWs l) = true := by
  intro l
  induction l with
  | nil => rfl
  | cons c rest ih =>
    rcases dropTrailWs_nil_or_cons c rest with ⟨h1, h2⟩ | ⟨d, t, h1, h2⟩
    · rw [h2]
      by_cases hc : isJsWs c = true
      · rw [if_pos hc]; rfl
      · rw [if_neg hc]
        show (!(isJsWs c)) = true
        simpa using hc
    · rw [h2]
      show lastNonWsB (d :: t) = true
      rw [← h1]
      exact ih

lemma dropTrailWs_id : ∀ l : List Char, lastNonWsB l = true → dropTrailWs l = l := by
  intro l
  induction l with
  | nil => intro _; rfl
  | cons c rest ih =>
    intro h
    cases rest with
    | nil =>
      have hc : (!(isJsWs c)) = true := h
      have e : dropTrailWs [c] = if isJsWs c then [] else [c] := rfl
      rw [e, if_neg]
      simpa using hc
    | cons d t =>
      have ih2 : dropTrailWs (d :: t) = d :: t := ih h
      rw [dropTrailWs_cons, ih2]

lemma headNonWs_dropWhile : ∀ l : List Char, headNonWs (l.dropWhile isJsWs) = true := by
  intro l
  induction l with
  | nil => rfl
  | cons c rest ih =>
    by_cases hc : isJsWs c = true
    · rw [List.dropWhile_cons_of_pos hc]
      exact ih
    · rw [List.dropWhile_cons_of_neg hc]
      show (!(isJsWs c)) = true
      simpa using hc

lemma noTagB_dropWhile : ∀ l : List Char, noTagB l = true →
    noTagB (l.dropWhile isJsWs) = true := by
  intro l
  induction l with
  | nil => intro h; exact h
  | cons c rest ih =>
    intro h
    by_cases hc : isJsWs c = true
    · rw [List.dropWhile_cons_of_pos hc]
      exact ih (noTagB_tail h)
    · rwa [List.dropWhile_cons_of_neg hc]

lemma midNormB_dropWhile : ∀ l : List Char, midNormB l = true →
    midNormB (l.dropWhile isJsWs) = true := by
  intro l
  induction l with
  | nil => intro h; exact h
  | cons c rest ih =>
    intro h
    by_cases hc : isJsWs c = true
    · rw [List.dropWhile_cons_of_pos hc]
      exact ih (midNormB_tail h)
    · rwa [List.dropWhile_cons_of_neg hc]

lemma midNormB_take : ∀ (l : List Char) (n : Nat), midNormB l = true →
    midNormB (List.take n l) = true := by
  intro l
  induction l with
  | nil => intro n _; simp [midNormB]
  | cons c rest ih =>
    intro n h
    cases n with
    | zero => rfl
    | succ m =>
      rw [List.take_succ_cons]
      refine midNormB_cons_of (midNormB_head h) ?_ (ih m (midNormB_tail h))
      intro d t he hcd
      cases rest with
      | nil => simp at he
      | cons e r2 =>
        cases m with
        | zero => simp at he
        | succ k =>
          rw [List.take_succ_cons] at he
          injection he with he1 he2
          subst he1
          exact midNormB_pair h hcd

lemma midNormB_of_front {l1 l2 : List Char} (hp : l1 <+: l2) (h : midNormB l2 = true) :
    midNormB l1 = true := by
  obtain ⟨t, ht⟩ := hp
  have he : l1 = List.take l1.length l2 := by
    rw [← ht, List.take_left]
  rw [he]
  exact midNormB_take l2 l1.length h

lemma noTagB_dropTrailWs :
    ∀ (n : Nat) (l : List Char), l.length ≤ n → noTagB l = true →
      noTagB (dropTrailWs l) = true := by
  intro n
  induction n with
  | zero =>
    intro l hl _
    match l, hl with
    | [], _ => rfl
  | succ n ih =>
    intro l hl hn
    match l with
    | [] => rfl
    | c :: rest =>
      have hlen : rest.length ≤ n := by
        simp only [List.length_cons] at hl
        omega
      by_cases hc : c = '<'
      · subst hc
        rcases noTagB_lt_elim hn with h1 | ⟨l2, rfl, h2⟩
        · rcases dropTrailWs_nil_or_cons '<' rest with ⟨_, hh2⟩ | ⟨d, t, hh1, hh2⟩
          · rw [hh2]
            by_cases hw : isJsWs '<' = true
            · rw [if_pos hw]; rfl
            · rw [if_neg hw]; rfl
          · rw [hh2]
            refine noTagB_lt_of_not_mem ?_
            intro hm
            have hsub := (dropTrailWs_front rest).sublist.subset
            exact h1 (hsub (hh1 ▸ hm))
        · rcases dropTrailWs_nil_or_cons '<' ('>' :: l2) with ⟨_, hh2⟩ | ⟨d, t, hh1, hh2⟩
          · rw [hh2]
            by_cases hw : isJsWs '<' = true
            · rw [if_pos hw]; rfl
            · rw [if_neg hw]; rfl
          · have hd : d = '>' := by
              rcases dropTrailWs_nil_or_cons '>' l2 with ⟨_, k2⟩ | ⟨e, u, k1, k2⟩
              · rw [k2] at hh1
                by_cases hw : isJsWs '>' = true
                · rw [if_pos hw] at hh1
                  cases hh1
                · rw [if_neg hw] at hh1
                  injection hh1 with a b
                  exact a.symm
              · rw [k2] at hh1
                injection hh1 with a b
                exact a.symm
            subst hd
            rw [hh2]
            have h3 : noTagB ('>' :: l2) = true := by
              rwa [noTagB_cons_ne _ (by decide)]
            have h4 : noTagB (dropTrailWs ('>' :: l2)) = true := by
              refine ih ('>' :: l2) ?_ h3
              simp only [List.length_cons] at hl ⊢
              omega
            rw [hh1] at h4
            have h5 : noTagB t = true := by
              rwa [noTagB_cons_ne _ (by decide)] at h4
            exact noTagB_lt_gt h5
      · rcases dropTrailWs_nil_or_cons c rest with ⟨_, hh2⟩ | ⟨d, t, hh1, hh2⟩
        · rw [hh2]
          by_cases hw : isJsWs c = true
          · rw [if_pos hw]; rfl
          · rw [if_neg hw]; rfl
        · rw [hh2, noTagB_cons_ne _ hc, ← hh1]
          exact ih rest hlen (noTagB_tail hn)

lemma headNonWs_dropTrailWs {l : List Char} (h : headNonWs l = true) :
    headNonWs (dropTrailWs l) = true := by
  cases l with
  | nil => rfl
  | cons c rest =>
    rcases dropTrailWs_nil_or_cons c rest with ⟨_, hh2⟩ | ⟨d, t, _, hh2⟩
    · rw [hh2]
      by_cases hw : isJsWs c = true
      · rw [if_pos hw]; rfl
      · rw [if_neg hw]
        exact h
    · rw [hh2]
      exact h

lemma collapseA_id : ∀ l : List Char, midNormB l = true →
    collapseA false l = l ∧ (headNonWs l = true → collapseA true l = l) := by
  intro l
  induction l with
  | nil => exact fun _ => ⟨rfl, fun _ => rfl⟩
  | cons c rest ih =>
    intro h
    have ihr := ih (midNormB_tail h)
    by_cases hw : isJsWs c = true
    · have hc : c = ' ' := by
        rcases midNormB_head h with h1 | h1
        · rw [hw] at h1
          cases h1
        · exact h1
      subst hc
      constructor
      · rw [(collapseA_cons_ws rest space_ws).2]
        have hh : headNonWs rest = true := by
          cases rest with
          | nil => rfl
          | cons d t =>
            have hp := midNormB_pair h
            have hd : ¬d = ' ' := fun hd2 => hp ⟨rfl, hd2⟩
            rcases midNormB_head (midNormB_tail h) with h2 | h2
            · simpa [headNonWs] using h2
            · exact absurd h2 hd
        rw [ihr.2 hh]
      · intro hhead
        have e : headNonWs (' ' :: rest) = !(isJsWs ' ') := rfl
        rw [e, space_ws] at hhead
        cases hhead
    · have hw2 : isJsWs c = false := by
        simpa using hw
      constructor
      · rw [collapseA_cons_nws rest hw2 false, ihr.1]
      · intro _
        rw [collapseA_cons_nws rest hw2 true, ihr.1]

lemma dropWhile_id_of_headNonWs {l : List Char} (h : headNonWs l = true) :
    l.dropWhile isJsWs = l := by
  cases l with
  | nil => rfl
  | cons c rest =>
    have hc : isJsWs c = false := by
      simpa [headNonWs] using h
    rw [List.dropWhile_cons_of_neg]
    simp [hc]

lemma trimL_id {l : List Char} (hh : headNonWs l = true) (hl : lastNonWsB l = true) :
    trimL l = l := by
  unfold trimL
  rw [dropWhile_id_of_headNonWs hh, dropTrailWs_id l hl]

lemma charCI_lt {c : Char} (h : charCI '<' c = true) : c = '<' := by
  have hfalse : (decide ('a' ≤ '<') && decide ('<' ≤ 'z')) = false := by decide
  simp only [charCI, hfalse, Bool.false_and, Bool.or_false] at h
  exact eq_of_beq h

lemma charCI_s_ne_gt {c : Char} (h : charCI 's' c = true) : ¬c = '>' := by
  intro hc
  subst hc
  revert h
  decide

lemma afterGt_eq_none : ∀ l : List Char, '>' ∉ l → afterGt l = none := by
  intro l
  induction l with
  | nil => intro _; rfl
  | cons c rest ih =>
    intro h
    have hc : ¬c = '>' := fun he => h (he ▸ List.mem_cons_self _ _)
    show (if c == '>' then some rest else afterGt rest) = none
    rw [if_neg (by simpa using hc)]
    exact ih fun hm => h (List.mem_cons_of_mem _ hm)

/-- A block pass whose opening literal starts with `<s` is the identity on
lists without a tag match (both `<script` and `<style` qualify). -/
lemma blockStripGo_id :
    ∀ (t close : List Char) (fuel : Nat) (l : List Char), noTagB l = true →
      blockStripGo ('<' :: 's' :: t) close fuel l = l := by
  intro t close fuel
  induction fuel with
  | zero =>
    intro l _
    cases l with
    | nil => rfl
    | cons c rest => rfl
  | succ fuel ih =>
    intro l hl
    cases l with
    | nil => rfl
    | cons c rest =>
      by_cases hp : startsWithCI ('<' :: 's' :: t) (c :: rest) = true
      · have hc : charCI '<' c = true ∧ startsWithCI ('s' :: t) rest = true := by
          simpa [startsWithCI, Bool.and_eq_true] using hp
        have hceq : c = '<' := charCI_lt hc.1
        subst hceq
        cases rest with
        | nil => simp [startsWithCI] at hc
        | cons d rest2 =>
          have hd : charCI 's' d = true ∧ startsWithCI t rest2 = true := by
            simpa [startsWithCI, Bool.and_eq_true] using hc.2
          have hdne : ¬d = '>' := charCI_s_ne_gt hd.1
          have hmem : '>' ∉ d :: rest2 := by
            rcases noTagB_lt_elim hl with h1 | ⟨l2, he, _⟩
            · exact h1
            · injection he with he1 he2
              exact absurd he1 hdne
          have hgt : afterGt (List.drop ('<' :: 's' :: t).length ('<' :: d :: rest2)) = none := by
            refine afterGt_eq_none _ ?_
            intro hm
            have hsub : List.drop ('<' :: 's' :: t).length ('<' :: d :: rest2) ⊆
                ('<' :: d :: rest2) := List.drop_subset _ _
            rcases List.mem_cons.mp (hsub hm) with h | h
            · cases h
            · exact hmem h
          simp only [blockStripGo, if_pos hp, hgt]
          rw [ih (d :: rest2) (noTagB_tail hl)]
      · simp only [blockStripGo, if_neg hp]
        rw [ih rest (noTagB_tail hl)]

lemma scriptStrip_id {l : List Char} (h : noTagB l = true) : scriptStrip l = l :=
  blockStripGo_id ['c', 'r', 'i', 'p', 't'] scriptClose l.length l h

lemma styleStrip_id {l : List Char} (h : noTagB l = true) : styleStrip l = l :=
  blockStripGo_id ['t', 'y', 'l', 'e'] styleClose l.length l h

lemma noTagB_tagStrip (l : List Char) : noTagB (tagStrip l) = true :=
  noTagB_tagStripA l none (by intro buf h; cases h)

/-- The character-level pipeline is idempotent. -/
lemma stripHtmlL_idem (l : List Char) : stripHtmlL (stripHtmlL l) = stripHtmlL l := by
  have h1 : noTagB (tagStrip (styleStrip (scriptStrip l))) = true := noTagB_tagStrip _
  have h2 : noTagB (collapseWs (tagStrip (styleStrip (scriptStrip l)))) = true :=
    noTagB_collapseA (tagStrip (styleStrip (scriptStrip l))).length _ false (le_refl _) h1
  have h3 : midNormB (collapseWs (tagStrip (styleStrip (scriptStrip l)))) = true :=
    (collapseA_norm (tagStrip (styleStrip (scriptStrip l)))).2.1
  have h4 : noTagB (stripHtmlL l) = true := by
    have hdw := noTagB_dropWhile _ h2
    exact noTagB_dropTrailWs
      ((collapseWs (tagStrip (styleStrip (scriptStrip l)))).dropWhile isJsWs).length _
      (le_refl _) hdw
  have h5 : midNormB (stripHtmlL l) = true := by
    have hdw := midNormB_dropWhile _ h3
    exact midNormB_of_front (dropTrailWs_front _) hdw
  have h6 : headNonWs (stripHtmlL l) = true :=
    headNonWs_dropTrailWs (headNonWs_dropWhile _)
  have h7 : lastNonWsB (stripHtmlL l) = true := lastNonWsB_dropTrailWs _
  show trimL (collapseWs (tagStrip (styleStrip (scriptStrip (stripHtmlL l))))) = stripHtmlL l
  rw [scriptStrip_id h4, styleStrip_id h4, tagStrip_id h4]
  show trimL (collapseA false (stripHtmlL l)) = stripHtmlL l
  rw [(collapseA_id (stripHtmlL l) h5).1]
  exact trimL_id h6 h7

lemma jsToString_str (s : String) : jsToString (.str s) = s := by
  simp [jsToString]

lemma stripHtml_str (s : String) : stripHtml (.str s) = if s = "" then "" else stripHtmlS s := by
  by_cases h : s = ""
  · subst h
    rfl
  · rw [if_neg h]
    show (if truthy (.str s) then stripHtmlS (jsToString (.str s)) else "") = stripHtmlS s
    rw [jsToString_str]
    rw [if_pos]
    simpa [truthy] using h

lemma stripHtmlS_idem (s : String) : stripHtmlS (stripHtmlS s) = stripHtmlS s := by
  show String.mk (stripHtmlL (String.mk (stripHtmlL s.data)).data) = _
  show String.mk (stripHtmlL (stripHtmlL s.data)) = _
  rw [stripHtmlL_idem]
  rfl

/-- Claim C4: stripHtml is idempotent on every input string, and script and
style blocks are removed together with their content, as in the quoted
example. -/
theorem stripHtml_idem_and_blocks :
    (∀ s : String, stripHtml (.str (stripHtml (.str s))) = stripHtml (.str s)) ∧
    stripHtml (.str "<p>Hi<script>bad()</script></p>") = "Hi" ∧
    stripHtml (.str "a<style>b</style>c") = "ac" := by
  refine ⟨?_, ?_, ?_⟩
  · intro s
    rw [stripHtml_str s]
    by_cases h : s = ""
    · rw [if_pos h]
      rfl
    · rw [if_neg h, stripHtml_str (stripHtmlS s)]
      by_cases h2 : stripHtmlS s = ""
      · rw [if_pos h2, h2]
      · rw [if_neg h2]
        exact stripHtmlS_idem s
  · rw [stripHtml_str, if_neg (by decide)]
    decide
  · rw [stripHtml_str, if_neg (by decide)]
    decide

/-! ## Relationship resolution: truthiness semantics (claims C3, C10) -/

/-- Test for the value `undefined`. -/
def isUndef : JsVal → Bool
  | .undefined => true
  | _ => false

/-- The display name as the specification words it literally: the `name`
attribute whenever PRESENT (even empty), else the `title` attribute
whenever present, else null. -/
def displayNameIfPresent (resource : JsVal) : JsVal :=
  if isUndef (jsGet (jsGet resource "attributes") "name") then
    (if isUndef (jsGet (jsGet resource "attributes") "title") then .null
     else jsGet (jsGet resource "attributes") "title")
  else jsGet (jsGet resource "attributes") "name"

lemma resolveOneIncluded_truthy_or_null (included : List JsVal) (ref : JsVal) :
    resolveOneIncluded included ref = .null ∨
      truthy (resolveOneIncluded included ref) = true := by
  rcases hfind : included.find? (fun x =>
      jsStrictEq (jsGet x "type") (jsGet ref "type") &&
      jsStrictEq (jsGet x "id") (jsGet ref "id")) with _ | found
  · left
    simp only [resolveOneIncluded, hfind]
  · simp only [resolveOneIncluded, hfind, jsOr]
    by_cases h1 : truthy (jsGet (jsGet found "attributes") "name") = true
    · rw [if_pos h1]
      exact Or.inr h1
    · rw [if_neg h1]
      by_cases h2 : truthy (jsGet (jsGet found "attributes") "title") = true
      · rw [if_pos h2]
        exact Or.inr h2
      · rw [if_neg h2]
        exact Or.inl rfl

lemma filter_truthy_eq_filter_not_null (included : List JsVal) (refs : List JsVal) :
    (refs.map (resolveOneIncluded included)).filter truthy =
      (refs.map (resolveOneIncluded included)).filter (fun v => !(isNull v)) := by
  induction refs with
  | nil => rfl
  | cons r rs ih =>
    simp only [List.map_cons, List.filter_cons]
    rcases resolveOneIncluded_truthy_or_null included r with h | h
    · rw [h]
      simpa [truthy, isNull] using ih
    · have hn : isNull (resolveOneIncluded included r) = false := by
        rcases hv : resolveOneIncluded included r with _ | _ | b | n | s | xs | fs
        · rfl
        · rw [hv] at h
          simp [truthy] at h
        · rfl
        · rfl
        · rfl
        · rfl
        · rfl
      rw [h, hn]
      simp only [Bool.not_false, if_true]
      rw [ih]

def oilResource : JsVal :=
  .obj [("type", .str "taxonomy_term"), ("id", .str "X"),
        ("attributes", .obj [("name", .str "Oil")])]

def temperaResource : JsVal :=
  .obj [("type", .str "taxonomy_term"), ("id", .str "Y"),
        ("attributes", .obj [("name", .str "Tempera")])]

def oilPayload : JsVal := .obj [("included", .arr [oilResource, temperaResource])]

def refX : JsVal := .obj [("type", .str "taxonomy_term"), ("id", .str "X")]

def refY : JsVal := .obj [("type", .str "taxonomy_term"), ("id", .str "Y")]

def refZ : JsVal := .obj [("type", .str "taxonomy_term"), ("id", .str "Z")]

/-- A matched resource whose `name` attribute is present but empty and
whose `title` is "T". -/
def emptyNameResource : JsVal :=
  .obj [("type", .str "taxonomy_term"), ("id", .str "1"),
        ("attributes", .obj [("name", .str ""), ("title", .str "T")])]

def emptyNamePayload : JsVal := .obj [("included", .arr [emptyNameResource])]

def ref1 : JsVal := .obj [("type", .str "taxonomy_term"), ("id", .str "1")]

lemma resolveIncludedNames_else {payload relData : JsVal}
    (h1 : truthy (jsGet payload "included") = true) (h2 : truthy relData = true) :
    resolveIncludedNames payload relData =
      (match relData with
       | .arr refs =>
         .arr ((refs.map (resolveOneIncluded (arrElems (jsGet payload "included")))).filter
           truthy)
       | _ => resolveOneIncluded (arrElems (jsGet payload "included")) relData) := by
  have e : (!truthy (jsGet payload "included") || !truthy relData) = false := by
    rw [h1, h2]
    rfl
  unfold resolveIncludedNames
  rw [e]
  cases relData <;> rfl

/-- Counterexample to claim C3 as stated: on a matched resource whose
`name` attribute is present but empty, the code falls through to `title`
("T"), while the claimed "name if present" reading yields "". -/
theorem resolveNames_present_reading_cx :
    resolveIncludedNames emptyNamePayload ref1 = .str "T" ∧
    displayNameIfPresent emptyNameResource = .str "" ∧
    JsVal.str "T" ≠ JsVal.str "" := by
  refine ⟨rfl, rfl, ?_⟩
  intro h
  injection h with h2
  exact absurd h2 (by decide)

/-- Claim C3 (amended): relationship resolution returns null with nothing
side-loaded or an absent (falsy) reference; a matched resource's display
name is its `name` attribute when truthy (present and non-empty), else its
`title` attribute when truthy, else null; a single reference resolves
directly and the list form maps over the references in order, dropping the
null results; including the concrete "Oil" examples. -/
theorem resolveNames_truthy_semantics :
    (∀ payload relData, truthy (jsGet payload "included") = false →
      resolveIncludedNames payload relData = .null) ∧
    (∀ payload relData, truthy relData = false →
      resolveIncludedNames payload relData = .null) ∧
    (∀ payload refs, truthy (jsGet payload "included") = true →
      resolveIncludedNames payload (.arr refs) =
        .arr ((refs.map (resolveOneIncluded (arrElems (jsGet payload "included")))).filter
          (fun v => !(isNull v)))) ∧
    (∀ payload ref, truthy (jsGet payload "included") = true → truthy ref = true →
      isArray ref = false →
      resolveIncludedNames payload ref =
        resolveOneIncluded (arrElems (jsGet payload "included")) ref) ∧
    (∀ included ref found,
      included.find? (fun x =>
          jsStrictEq (jsGet x "type") (jsGet ref "type") &&
          jsStrictEq (jsGet x "id") (jsGet ref "id")) = some found →
      resolveOneIncluded included ref =
        (if truthy (jsGet (jsGet found "attributes") "name") = true then
          jsGet (jsGet found "attributes") "name"
        else if truthy (jsGet (jsGet found "attributes") "title") = true then
          jsGet (jsGet found "attributes") "title"
        else .null)) ∧
    (∀ included ref,
      included.find? (fun x =>
          jsStrictEq (jsGet x "type") (jsGet ref "type") &&
          jsStrictEq (jsGet x "id") (jsGet ref "id")) = none →
      resolveOneIncluded included ref = .null) ∧
    resolveIncludedNames oilPayload refX = .str "Oil" ∧
    resolveIncludedNames oilPayload (.arr [refX, refY]) = .arr [.str "Oil", .str "Tempera"] ∧
    resolveIncludedNames oilPayload (.arr [refX, refZ, refY]) =
      .arr [.str "Oil", .str "Tempera"] ∧
    resolveIncludedNames oilPayload refZ = .null := by
  refine ⟨?_, ?_, ?_, ?_, ?_, ?_, rfl, rfl, rfl, rfl⟩
  · intro payload relData h
    simp [resolveIncludedNames, h]
  · intro payload relData h
    simp [resolveIncludedNames, h]
  · intro payload refs h
    rw [@resolveIncludedNames_else payload (.arr refs) h rfl]
    show JsVal.arr
      ((refs.map (resolveOneIncluded (arrElems (jsGet payload "included")))).filter truthy) = _
    rw [filter_truthy_eq_filter_not_null]
  · intro payload ref h1 h2 h3
    rcases ref with _ | _ | b | n | s | xs | fs
    · simp [truthy] at h2
    · simp [truthy] at h2
    · rw [@resolveIncludedNames_else payload (.bool b) h1 h2]
    · rw [@resolveIncludedNames_else payload (.num n) h1 h2]
    · rw [@resolveIncludedNames_else payload (.str s) h1 h2]
    · simp [isArray] at h3
    · rw [@resolveIncludedNames_else payload (.obj fs) h1 h2]
  · intro included ref found hfind
    simp only [resolveOneIncluded, hfind, jsOr]
  · intro included ref hfind
    simp only [resolveOneIncluded, hfind]

/-- Witness for the amended claim C3 at concrete inputs. -/
theorem resolveNames_truthy_semantics_witness :
    resolveIncludedNames (.obj [("x", .num 1)]) refX = .null ∧
    resolveIncludedNames oilPayload .null = .null ∧
    resolveIncludedNames oilPayload (.arr [refX]) =
      .arr (([refX].map (resolveOneIncluded [oilResource, temperaResource])).filter
        (fun v => !(isNull v))) := by
  refine ⟨?_, ?_, ?_⟩
  · exact resolveNames_truthy_semantics.1 _ refX rfl
  · exact resolveNames_truthy_semantics.2.1 oilPayload _ rfl
  · exact resolveNames_truthy_semantics.2.2.1 oilPayload [refX] rfl

/-- A matched resource with empty `name` and a parametric `title`. -/
def titledResource (t : JsVal) : JsVal :=
  .obj [("type", .str "x"), ("id", .str "7"),
        ("attributes", .obj [("name", .str ""), ("title", t)])]

def titledPayload (t : JsVal) : JsVal := .obj [("included", .arr [titledResource t])]

def refT : JsVal := .obj [("type", .str "x"), ("id", .str "7")]

/-- Claim C10: a matched resource whose `name` attribute is the empty
string falls through to its `title` attribute (then to null), and the list
form keeps only truthy resolved names, so a matched reference whose
resolution is falsy is dropped as well. -/
theorem resolveNames_falsy_dropped :
    (∀ t : JsVal, resolveIncludedNames (titledPayload t) refT =
      (if truthy t = true then t else .null)) ∧
    (∀ t : JsVal, resolveIncludedNames (titledPayload t) (.arr [refT]) =
      (if truthy t = true then .arr [t] else .arr [])) ∧
    resolveIncludedNames (titledPayload (.str "")) (.arr [refT]) = .arr [] ∧
    (∀ payload refs out, resolveIncludedNames payload (.arr refs) = .arr out →
      ∀ v ∈ out, truthy v = true) := by
  refine ⟨?_, ?_, rfl, ?_⟩
  · intro t
    rfl
  · intro t
    by_cases h : truthy t = true
    · show JsVal.arr (List.filter truthy [if truthy t = true then t else JsVal.null]) = _
      rw [if_pos h, if_pos h]
      simp [List.filter_cons, h]
    · show JsVal.arr (List.filter truthy [if truthy t = true then t else JsVal.null]) = _
      rw [if_neg h, if_neg h]
      simp [List.filter_cons, truthy]
  · intro payload refs out he v hv
    by_cases hi : truthy (jsGet payload "included") = true
    · rw [@resolveIncludedNames_else payload (.arr refs) hi rfl] at he
      have he2 : (refs.map (resolveOneIncluded (arrElems (jsGet payload "included")))).filter
          truthy = out := by
        injection he
      rw [← he2] at hv
      exact (List.mem_filter.mp hv).2
    · have hi2 : truthy (jsGet payload "included") = false := by
        simpa using hi
      have hnull : resolveIncludedNames payload (.arr refs) = .null := by
        simp [resolveIncludedNames, hi2]
      rw [hnull] at he
      cases he

/-- Witness for claim C10 at concrete inputs. -/
theorem resolveNames_falsy_dropped_witness :
    resolveIncludedNames (titledPayload (.str "T")) refT = .str "T" ∧
    resolveIncludedNames (titledPayload (.num 0)) refT = .null ∧
    truthy (.str "Oil") = true := by
  refine ⟨?_, ?_, ?_⟩
  · have h := resolveNames_falsy_dropped.1 (.str "T")
    rw [if_pos (by decide)] at h
    exact h
  · have h := resolveNames_falsy_dropped.1 (.num 0)
    rw [if_neg (by decide)] at h
    exact h
  · exact resolveNames_falsy_dropped.2.2.2 oilPayload [refX] [.str "Oil"] rfl (.str "Oil")
      (List.mem_singleton.mpr rfl)

/-! ## Lookup claims (C1, C2, C6, C7, C9) -/

lemma lookup_eval (net : Url → FetchOutcome) (endpoint ninv : String) :
    lookupOperaByInventario net endpoint ninv = ([], .error .referenceError) := rfl

/-- Claim C1 (code bug): every invocation of the lookup rejects with the
ReferenceError raised by reading the undeclared DRUPAL_BASIC_AUTH while
building the fetch options -- before any request is issued, so no timeout
can ever be the cause -- hence, contrary to the claim, no invocation ever
returns Found, NotFound or RequestFailed, and nothing ever surfaces as a
RequestFailed result: the error is thrown past the lookup boundary. -/
theorem lookup_always_throws_reference_error :
    ∀ (net : Url → FetchOutcome) (endpoint ninv : String),
      lookupOperaByInventario net endpoint ninv = ([], Except.error .referenceError) := by
  intro net endpoint ninv
  rfl

/-- Claim C2 (code bug): the retry policy the claim describes (compact
filter first, verbose condition encoding retried exactly once on 400 or
403) is the logic written at lines 145-148, but it is never exercised:
every invocation performs zero outbound requests -- never one or two --
because fetchJson throws the ReferenceError while evaluating the fetch
options, before `fetch` runs, so no response status is ever observed. -/
theorem lookup_issues_no_requests :
    ∀ (net : Url → FetchOutcome) (endpoint ninv : String),
      (lookupOperaByInventario net endpoint ninv).1 = [] ∧
      (∀ u, (fetchJson net u).1 = []) := by
  intro net endpoint ninv
  exact ⟨rfl, fun u => rfl⟩

/-- A successful repository response with empty data (as the environment
would deliver it, were a request ever issued). -/
def emptyDataResp : FetchResp :=
  { ok := true, status := 200, json := .obj [("data", .arr [])], text := "{}" }

/-- The repository response quoted in claim C6. -/
def vaseResp : FetchResp :=
  { ok := true, status := 200,
    json := .obj [("data", .arr [.obj [("id", .str "1"), ("type", .str "node--opera"),
      ("attributes", .obj [("title", .str "Vase"), ("field_inventario", .str "10220")])]])],
    text := "" }

/-- The ResolvedItem produced from `vaseResp`. -/
def vaseItem : ResolvedItem :=
  { id := .str "1", type := .str "node--opera", title := .str "Vase",
    numero_inventario := .str "10220", periodo := .null, data_label := .null,
    data_da := .null, data_a := .null, acquisizione := .null,
    dimensioni := { altezza := .null, larghezza := .null, diametro := .null,
                    spessore := .null },
    autore := .null, tipologia := .null, luogo := .null, tecnica := .null,
    materiale := .null, schedatore := .null,
    descrizione := { text := "", html := .str "" }, links := .null }

/-- Claim C6 (code bug): offered exactly the quoted repository response,
the lookup still rejects with the ReferenceError, issuing no request and
never returning Found; the response mapping written at lines 158-209
(`lookupFinish`), which an execution would reach only if a response were
ever obtained, yields exactly the record the claim describes: Found with
title "Vase", numero_inventario "10220", all six relationship fields
null, and empty description text and html. -/
theorem lookup_vase_throws_but_mapping_matches :
    lookupOperaByInventario (fun _ => .resp vaseResp) "e" "10220" =
      ([], Except.error .referenceError) ∧
    lookupFinish vaseResp = .found vaseItem ∧
    vaseItem.title = .str "Vase" ∧ vaseItem.numero_inventario = .str "10220" ∧
    vaseItem.autore = .null ∧ vaseItem.tipologia = .null ∧ vaseItem.luogo = .null ∧
    vaseItem.tecnica = .null ∧ vaseItem.materiale = .null ∧ vaseItem.schedatore = .null ∧
    vaseItem.descrizione.text = "" ∧ vaseItem.descrizione.html = .str "" := by
  refine ⟨rfl, ?_, rfl, rfl, rfl, rfl, rfl, rfl, rfl, rfl, rfl, rfl⟩
  rfl

lemma take500_ne_empty {s : String} (h : s ≠ "") : s.take 500 ≠ "" := by
  intro he
  apply h
  have hd : s.data.take 500 = [] := by
    have h2 := congrArg String.data he
    simpa using h2
  have hnil : s.data = [] := by
    cases hs : s.data with
    | nil => rfl
    | cons c r =>
      rw [hs] at hd
      simp at hd
  apply String.ext
  rw [hnil]

/-- Claim C7 (code bug): the outcome mapping the claim describes is the
one written at lines 150-166 and proved here of `lookupFinish`: a
successful final response whose data payload is an empty list or absent
maps to NotFound, and a non-successful final response maps to
RequestFailed carrying the HTTP status, with the repository's `errors`
value as detail when it is present (truthy), else the first 500
characters of the raw body.  But no execution ever reaches that mapping:
every invocation of the lookup rejects with the ReferenceError before any
request is issued, so no lookup ever has a (possibly retried) response. -/
theorem lookupFinish_outcome_mapping :
    (∀ res : FetchResp, res.ok = true →
      (jsGet res.json "data" = .arr [] ∨ jsGet res.json "data" = .undefined) →
      lookupFinish res = .notFound) ∧
    (∀ res : FetchResp, res.ok = false →
      lookupFinish res = .requestFailed res.status (failDetails res) ∧
      (truthy (jsGet res.json "errors") = true →
        failDetails res = jsGet res.json "errors") ∧
      (truthy (jsGet res.json "errors") = false → res.text ≠ "" →
        failDetails res = .str (res.text.take 500))) ∧
    (∀ (net : Url → FetchOutcome) (endpoint ninv : String),
      (lookupOperaByInventario net endpoint ninv).2 = Except.error .referenceError) := by
  refine ⟨?_, ?_, ?_⟩
  · intro res hok hdata
    rcases hdata with hd | hd
    · simp [lookupFinish, hok, hd, truthy]
    · simp [lookupFinish, hok, hd, truthy]
  · intro res hok
    refine ⟨by simp [lookupFinish, hok], ?_, ?_⟩
    · intro htr
      simp [failDetails, jsOr, htr]
    · intro htr hne
      have ht5 : truthy (.str (res.text.take 500)) = true := by
        have := take500_ne_empty hne
        simpa [truthy] using this
      simp [failDetails, jsOr, htr, ht5]
  · intro net endpoint ninv
    rfl

/-- A non-successful response carrying a structured `errors` list. -/
def errorsResp : FetchResp :=
  { ok := false, status := 500,
    json := .obj [("errors", .arr [.obj [("title", .str "boom")]])],
    text := "ignored" }

/-- A non-successful response with an unparsable body. -/
def textOnlyResp : FetchResp :=
  { ok := false, status := 502, json := .null, text := "Bad gateway" }

/-- Witness for the claim C7 theorem at concrete inputs. -/
theorem lookupFinish_outcome_mapping_witness :
    lookupFinish emptyDataResp = .notFound ∧
    lookupFinish errorsResp = .requestFailed 500 (failDetails errorsResp) ∧
    failDetails errorsResp = .arr [.obj [("title", .str "boom")]] ∧
    failDetails textOnlyResp = .str "Bad gateway" ∧
    (lookupOperaByInventario (fun _ => .resp emptyDataResp) "e" "1").2 =
      Except.error .referenceError := by
  refine ⟨?_, ?_, ?_, ?_, ?_⟩
  · exact lookupFinish_outcome_mapping.1 emptyDataResp rfl (Or.inl rfl)
  · exact (lookupFinish_outcome_mapping.2.1 errorsResp rfl).1
  · exact (lookupFinish_outcome_mapping.2.1 errorsResp rfl).2.1 rfl
  · have he : textOnlyResp.text.take 500 = "Bad gateway" := by
      rw [String.take_eq]
      rfl
    have h2 := (lookupFinish_outcome_mapping.2.1 textOnlyResp rfl).2.2 rfl (by decide)
    rw [h2, he]
  · exact lookupFinish_outcome_mapping.2.2 (fun _ => .resp emptyDataResp) "e" "1"

/-- Attributes with all descriptive string fields set to `w` and all
measurement and date-bound fields set to `v`. -/
def measureAttrs (v w : JsVal) : JsVal :=
  .obj [("title", w), ("field_inventario", w), ("field_periodo", w),
        ("field_data_label", w), ("field_acquisizione", w),
        ("field_data_0", v), ("field_data_1", v),
        ("field_altezza", v), ("field_larghezza", v), ("field_diametro", v),
        ("field_spessore", v)]

/-- A successful response whose single item carries `measureAttrs v w`. -/
def measureResp (v w : JsVal) : FetchResp :=
  { ok := true, status := 200,
    json := .obj [("data", .arr [.obj [("id", .str "9"), ("type", .str "node--opera"),
      ("attributes", measureAttrs v w)]])],
    text := "" }

/-- The intermediate form of the item resolved from `measureResp v w`,
with the field-mapping operators still unapplied. -/
def measureItemMid (v w : JsVal) : ResolvedItem :=
  { id := .str "9", type := .str "node--opera",
    title := jsOr w .null, numero_inventario := jsOr w .null,
    periodo := jsOr w .null, data_label := jsOr w .null,
    data_da := jsNullish v .null, data_a := jsNullish v .null,
    acquisizione := jsOr w .null,
    dimensioni := { altezza := jsNullish v .null, larghezza := jsNullish v .null,
                    diametro := jsNullish v .null, spessore := jsNullish v .null },
    autore := .null, tipologia := .null, luogo := .null, tecnica := .null,
    materiale := .null, schedatore := .null,
    descrizione := { text := "", html := .str "" },
    links := .null }

/-- The item resolved from `measureResp v w` for non-nullish `v` and falsy
`w`: the measurement and date fields keep `v`, the descriptive fields
become null. -/
def measureItem (v : JsVal) : ResolvedItem :=
  { id := .str "9", type := .str "node--opera", title := .null,
    numero_inventario := .null, periodo := .null, data_label := .null,
    data_da := v, data_a := v, acquisizione := .null,
    dimensioni := { altezza := v, larghezza := v, diametro := v, spessore := v },
    autore := .null, tipologia := .null, luogo := .null, tecnica := .null,
    materiale := .null, schedatore := .null,
    descrizione := { text := "", html := .str "" }, links := .null }

/-- Claim C9: the four measurement fields and both date bounds go through
the nullish check (only null and undefined become null, zero survives),
while the five descriptive string fields go through truthiness (every
falsy value, including 0 and the empty string, becomes null). -/
theorem resolved_item_zero_preservation :
    ∀ v w : JsVal, v ≠ .null → v ≠ .undefined → truthy w = false →
      lookupFinish (measureResp v w) = .found (measureItem v) ∧
      (measureItem v).dimensioni.altezza = v ∧ (measureItem v).dimensioni.larghezza = v ∧
      (measureItem v).dimensioni.diametro = v ∧ (measureItem v).dimensioni.spessore = v ∧
      (measureItem v).data_da = v ∧ (measureItem v).data_a = v ∧
      (measureItem v).title = .null ∧ (measureItem v).numero_inventario = .null ∧
      (measureItem v).periodo = .null ∧ (measureItem v).data_label = .null ∧
      (measureItem v).acquisizione = .null := by
  intro v w hv1 hv2 hw
  have hnl : jsNullish v .null = v := by
    cases v
    · exact absurd rfl hv2
    · exact absurd rfl hv1
    · rfl
    · rfl
    · rfl
    · rfl
    · rfl
  have hor : jsOr w .null = .null := by
    unfold jsOr
    rw [hw]
    rfl
  have hstep : lookupFinish (measureResp v w) = .found (measureItemMid v w) := rfl
  refine ⟨?_, rfl, rfl, rfl, rfl, rfl, rfl, rfl, rfl, rfl, rfl, rfl⟩
  rw [hstep]
  unfold measureItemMid measureItem
  rw [hnl, hor]

/-- Witness for claim C9: the numeric value 0 survives in the measurement
and date fields while the descriptive fields (also set to 0) become null. -/
theorem resolved_item_zero_preservation_witness :
    lookupFinish (measureResp (.num 0) (.num 0)) = .found (measureItem (.num 0)) ∧
    (measureItem (.num 0)).dimensioni.altezza = .num 0 ∧
    (measureItem (.num 0)).title = .null := by
  have h := resolved_item_zero_preservation (.num 0) (.num 0)
    (fun h => JsVal.noConfusion h) (fun h => JsVal.noConfusion h) (by decide)
  exact ⟨h.1, h.2.1, h.2.2.2.2.2.2.2.1⟩

/-! ## Dispatcher claims (C5, C8) -/

/-- Claim C5: a POST with no session id and a non-initialization body, and
a POST with an unknown session id and a non-initialization body, are both
answered with the fixed 400 / -32000 protocol error and leave the session
registry untouched; a GET with an unknown session id is answered with the
"invalid session" response and leaves the registry untouched. -/
theorem dispatcher_rejections :
    ∀ (sessions : List String) (newSid s : String),
      postDispatch sessions newSid none false =
        (.rejected 400 (-32000) "Bad Request: No valid session ID provided", sessions) ∧
      (sessions.contains s = false →
        postDispatch sessions newSid (some s) false =
          (.rejected 400 (-32000) "Bad Request: No valid session ID provided", sessions)) ∧
      (sessions.contains s = false →
        getDispatch sessions (some s) =
          (.invalidSession 400 "Invalid or missing session ID", sessions)) := by
  intro sessions newSid s
  refine ⟨rfl, ?_, ?_⟩
  · intro h
    have hm : s ∉ sessions := by simpa using h
    simp [postDispatch, sessionLive, headerTruthy, hm]
  · intro h
    have hm : s ∉ sessions := by simpa using h
    simp [getDispatch, sessionLive, hm]

/-- Witness for claim C5. -/
theorem dispatcher_rejections_witness :
    postDispatch ["abc"] "n" none false =
      (.rejected 400 (-32000) "Bad Request: No valid session ID provided", ["abc"]) ∧
    postDispatch ["abc"] "n" (some "zzz") false =
      (.rejected 400 (-32000) "Bad Request: No valid session ID provided", ["abc"]) ∧
    getDispatch ["abc"] (some "zzz") =
      (.invalidSession 400 "Invalid or missing session ID", ["abc"]) := by
  refine ⟨(dispatcher_rejections ["abc"] "n" "zzz").1, ?_, ?_⟩
  · exact (dispatcher_rejections ["abc"] "n" "zzz").2.1 rfl
  · exact (dispatcher_rejections ["abc"] "n" "zzz").2.2 rfl

/-- Counterexample to claim C8 as stated: a POST carrying the session-id
header with the empty-string value -- an id that is not (and can never be)
registered -- together with a valid initialization body is NOT rejected:
the falsy header value makes the handler take the initialization path and
a session is created and registered. -/
theorem post_empty_sid_creates_cx :
    postDispatch ["a"] "fresh" (some "") true = (.created "fresh", ["fresh", "a"]) ∧
    (["a"] : List String).contains "" = false ∧
    PostOutcome.created "fresh" ≠
      .rejected 400 (-32000) "Bad Request: No valid session ID provided" := by
  refine ⟨rfl, rfl, ?_⟩
  intro h
  cases h

/-- Claim C8 (amended): a POST carrying a non-empty unknown session id is
rejected with the fixed 400 / -32000 protocol error -- even when its body
is a valid initialization request -- and no session is created; a session
is created only when the session-id header is absent or carries the empty
string, and then only for an initialization body. -/
theorem post_unknown_session_amended :
    ∀ (sessions : List String) (newSid s : String) (isInitReq : Bool),
      (s ≠ "" → sessions.contains s = false →
        postDispatch sessions newSid (some s) isInitReq =
          (.rejected 400 (-32000) "Bad Request: No valid session ID provided", sessions)) ∧
      (∀ sessionId out registry2,
        postDispatch sessions newSid sessionId isInitReq = (.created out, registry2) →
        (sessionId = none ∨ sessionId = some "") ∧ isInitReq = true ∧
          registry2 = out :: sessions) := by
  intro sessions newSid s isInitReq
  constructor
  · intro h1 h2
    have hs : (s != "") = true := by simpa using h1
    have hm : s ∉ sessions := by simpa using h2
    simp [postDispatch, sessionLive, headerTruthy, hm, hs]
  · intro sessionId out registry2 he
    by_cases hl : sessionLive sessions sessionId = true
    · unfold postDispatch at he
      rw [if_pos hl] at he
      have hfst := congrArg Prod.fst he
      cases hfst
    · unfold postDispatch at he
      rw [if_neg hl] at he
      by_cases hi : (!headerTruthy sessionId && isInitReq) = true
      · rw [if_pos hi] at he
        injection he with e1 e2
        injection e1 with e3
        have hparts : headerTruthy sessionId = false ∧ isInitReq = true := by
          have h3 := hi
          simp only [Bool.and_eq_true, Bool.not_eq_true'] at h3
          exact h3
        have hsid : sessionId = none ∨ sessionId = some "" := by
          cases sessionId with
          | none => exact Or.inl rfl
          | some s2 =>
            right
            have h4 : (s2 != "") = false := hparts.1
            have h5 : s2 = "" := by simpa using h4
            rw [h5]
        exact ⟨hsid, hparts.2, by rw [← e2, e3]⟩
      · rw [if_neg hi] at he
        have hfst := congrArg Prod.fst he
        cases hfst

/-- Witness for the amended claim C8. -/
theorem post_unknown_session_amended_witness :
    postDispatch ["live"] "n" (some "ghost") true =
      (.rejected 400 (-32000) "Bad Request: No valid session ID provided", ["live"]) ∧
    (((none : Option String) = none ∨ (none : Option String) = some "") ∧
      true = true ∧ ["n0"] = "n0" :: ([] : List String)) := by
  constructor
  · exact (post_unknown_session_amended ["live"] "n" "ghost" true).1 (by decide) rfl
  · exact (post_unknown_session_amended [] "n0" "x" true).2 none "n0" ["n0"] rfl
